import Mathlib

/-!
# raycloudtools: rayalign peak localisation and grid boxes, raysplit criteria

A shallow embedding of the arithmetic of `rayalign.cpp` (`main`) and of
`raysplit.cpp` (`split` and the per-criterion predicates of `main`).

Conventions of the embedding:

* `double` values are rationals (`ℚ`).  The peak localisation, the polar mapping
  and the `raysplit` criteria are read in exact arithmetic.  The grid box of
  lines 63 and 73 is computed with `roundDouble`, the binary64 rounding of the
  result of `-` and `+`; `min` and `max` never round.
* A `double` division whose divisor is zero yields NaN or an infinity in the
  source.  Neither is a number, and every later `+`, `-`, `*` keeps the value
  non-finite, so such a result is `none` here and a finite result is `some q`.
* `int` values are `Int`; `/` and `%` on `int` are the truncating
  `Int.tdiv` and `Int.tmod`.
* `Vector3d`, `Vector3i` are functions on `Fin 3`, indexed like `v[axis]`.
-/

set_option autoImplicit false

namespace RayAlign

abbrev Vector3d := Fin 3 → ℚ
abbrev Vector3i := Fin 3 → Int

/-- A `double` division `a / b`: `none` stands for the non-finite result
(NaN or an infinity) that a zero divisor produces. -/
def fdiv (a b : ℚ) : Option ℚ :=
  if b = 0 then none else some (a / b)

/-- The expression `index + 0.5*(y0 - y2)/(y0 + y2 - 2.0*y1)` of
`rayalign.cpp` lines 243 and 281. -/
def subPixel (index : Int) (y0 y1 y2 : ℚ) : Option ℚ :=
  (fdiv (0.5 * (y0 - y2)) (y0 + y2 - 2.0 * y1)).map (fun d => (index : ℚ) + d)

/-- The statement `if (v > dim / 2) v -= dim;` of lines 245-246 and 283-284:
`dim` is an `int`, so `dim / 2` is the truncating integer quotient. -/
def wrapAround (dim : Int) (v : ℚ) : ℚ :=
  if v > ((Int.tdiv dim 2 : Int) : ℚ) then v - (dim : ℚ) else v

/-- Lines 234-246: the refined, wrapped peak of the summed angular correlation.
`corr i` is `polar[0](i).real()`, `index` the result of `maxRealIndex()`. -/
def rotationIndex (dim : Int) (corr : Int → ℚ) (index : Int) : Option ℚ :=
  let back := Int.tmod (index + dim - 1) dim
  let fwd := Int.tmod (index + 1) dim
  let y0 := corr back
  let y1 := corr index
  let y2 := corr fwd
  (subPixel index y0 y1 y2).map (wrapAround dim)

/-- Lines 234-247: the rotation angle, `angle *= 2.0*pi/(double)polarDims[0]`.
The constant `pi` of the library headers is a parameter. -/
def rotationAngle (pi : ℚ) (dim : Int) (corr : Int → ℚ) (index : Int) : Option ℚ :=
  (rotationIndex dim corr index).map (fun angle => angle * (2.0 * pi / (dim : ℚ)))

/-- Lines 274-284, one pass of the `axis` loop: the refined, wrapped peak
position on `axis`.  `corr v` is `array(v).real()`, `ind` the result of
`maxRealIndex()`. -/
def peakAxis (dims : Vector3i) (corr : Vector3i → ℚ) (ind : Vector3i) (axis : Fin 3) :
    Option ℚ :=
  let dim := dims axis
  let back := Function.update ind axis (Int.tmod (ind axis + dim - 1) dim)
  let fwd := Function.update ind axis (Int.tmod (ind axis + 1) dim)
  let y0 := corr back
  let y1 := corr ind
  let y2 := corr fwd
  (subPixel (ind axis) y0 y1 y2).map (wrapAround dim)

/-- Lines 286-288: `pos *= -array.voxelWidth; pos += boxMins[1]-boxMins[0];`,
read on one axis. -/
def translation (voxelWidth : ℚ) (boxMins0 boxMins1 : Vector3d) (dims : Vector3i)
    (corr : Vector3i → ℚ) (ind : Vector3i) (axis : Fin 3) : Option ℚ :=
  let pos := peakAxis dims corr ind axis
  let pos := pos.map (fun v => v * (-voxelWidth))
  pos.map (fun v => v + (boxMins1 axis - boxMins0 axis))

/-- The wraparound rule read with `N/2` as the exact half of `N`. -/
def wrapExactHalf (N : Int) (v : ℚ) : ℚ :=
  if v > (N : ℚ) / 2 then v - (N : ℚ) else v


/-! ### The initial grid build (`rayalign.cpp` lines 53-76) -/

/-- Modelled from the spec: `minVector` of the library header `rayutils.h`,
which is not among the sources; the componentwise minimum. -/
def minVector (a b : Vector3d) : Vector3d := fun i => min (a i) (b i)

/-- Modelled from the spec: `maxVector` of the library header `rayutils.h`,
which is not among the sources; the componentwise maximum. -/
def maxVector (a b : Vector3d) : Vector3d := fun i => max (a i) (b i)

/-- Lines 56-61: `boxMin` starts at `(-1,-1,-1)` and `boxMax` at
`(-1e10,-1e10,-1e10)`; every endpoint is folded in with `minVector` and
`maxVector`.  The result is the pair `(boxMin, boxMax)`. -/
def cloudBox (ends : List Vector3d) : Vector3d × Vector3d :=
  ends.foldl (fun box point => (minVector box.1 point, maxVector box.2 point))
    ((fun _ => -1), (fun _ => -1e10))

/-- Rounding to the nearest integer, ties to the even one. -/
def roundHalfEven (x : ℚ) : Int :=
  let f := ⌊x⌋
  if x - (f : ℚ) < 1 / 2 then f
  else if 1 / 2 < x - (f : ℚ) then f + 1
  else if f % 2 = 0 then f else f + 1

/-- The binary64 value of an exact result `x`: 53 significant bits, round to
nearest, ties to even.  With `2^e ≤ |x| < 2^(e+1)` the spacing of the doubles is
`2^(e-52)`.  Overflow and subnormal numbers are outside this model. -/
def roundDouble (x : ℚ) : ℚ :=
  if x = 0 then 0
  else
    let e := Int.log 2 |x|
    (roundHalfEven (x / (2 : ℚ) ^ (e - 52)) : ℚ) * (2 : ℚ) ^ (e - 52)

/-- Lines 53-65: the loop over the two clouds, with `fl` the rounding applied to
the result of the subtraction `boxMax - boxMin` of line 63.  The state is
`(boxMins, boxWidth)`; `boxWidth` starts at `(0,0,0)`, and both entries of
`boxMins` are assigned by the loop. -/
def gridBoxesWith (fl : ℚ → ℚ) (clouds : Fin 2 → List Vector3d) :
    (Fin 2 → Vector3d) × Vector3d :=
  ([0, 1] : List (Fin 2)).foldl
    (fun st c =>
      let box := cloudBox (clouds c)
      let width : Vector3d := fun i => fl (box.2 i - box.1 i)
      (Function.update st.1 c box.1, maxVector st.2 width))
    ((fun _ _ => 0), (fun _ => 0))

/-- Lines 53-65 as the program runs them, in `double`. -/
def gridBoxes (clouds : Fin 2 → List Vector3d) : (Fin 2 → Vector3d) × Vector3d :=
  gridBoxesWith roundDouble clouds

/-- Line 73: the upper corner `boxMins[c] + boxWidth` passed to `arrays[c].init`,
with `fl` the rounding applied to the result of the addition. -/
def boxTopWith (fl : ℚ → ℚ) (clouds : Fin 2 → List Vector3d) (c : Fin 2) : Vector3d :=
  fun i => fl ((gridBoxesWith fl clouds).1 c i + (gridBoxesWith fl clouds).2 i)

/-- Line 73 as the program runs it, in `double`. -/
def boxTop (clouds : Fin 2 → List Vector3d) (c : Fin 2) : Vector3d :=
  boxTopWith roundDouble clouds c

/-- Lines 253-255: after the rotation, `boxMins[0]` is recomputed from
`(1e10,1e10,1e10)`. -/
def rotatedBoxMin (ends : List Vector3d) : Vector3d :=
  ends.foldl minVector (fun _ => 1e10)

/-! ### The polar mapping (`rayalign.cpp` lines 119-155) -/

/-- The conversion `int x = pos;` of a `double`: truncation toward zero. -/
def toInt (v : ℚ) : Int := if 0 ≤ v then ⌊v⌋ else ⌈v⌉

/-- Line 119: `max(array.dims[0], array.dims[1])/2`. -/
def maxRad (dims : Vector3i) : Int := Int.tdiv (max (dims 0) (dims 1)) 2

/-- Line 120. -/
def polarDims (dims : Vector3i) : Vector3i := ![4 * maxRad dims, maxRad dims, dims 2]

/-- Lines 137-142: the wrapped sample coordinate for radius bin `j`, given the
values `sinAngle`, `cosAngle` of `sin(angle)` and `cos(angle)`.  The loop runs
`j` over `[0, polarDims[1])`, so the divisor is positive wherever this is used. -/
def polarPos (dims : Vector3i) (sinAngle cosAngle : ℚ) (j : Int) : Fin 2 → ℚ :=
  let radius : ℚ := (0.5 + (j : ℚ)) / ((polarDims dims 1 : Int) : ℚ)
  let pos0 : ℚ := radius * 0.5 * (((dims 0 : Int) : ℚ) * sinAngle)
  let pos1 : ℚ := radius * 0.5 * (((dims 1 : Int) : ℚ) * cosAngle)
  let pos0 := if pos0 < 0.0 then pos0 + ((dims 0 : Int) : ℚ) else pos0
  let pos1 := if pos1 < 0.0 then pos1 + ((dims 1 : Int) : ℚ) else pos1
  ![pos0, pos1]

/-- Lines 143-151: the `(x, y)` indices of the four cells read by the bilinear
interpolation, in the order `a(x,y,z)`, `a(x+1,y,z)`, `a(x,y+1,z)`,
`a(x+1,y+1,z)`. -/
def polarCells (dims : Vector3i) (sinAngle cosAngle : ℚ) (j : Int) : List (Int × Int) :=
  let pos := polarPos dims sinAngle cosAngle j
  let x := toInt (pos 0)
  let y := toInt (pos 1)
  [(x, y), (x + 1, y), (x, y + 1), (x + 1, y + 1)]

end RayAlign

namespace RaySplit

open RayAlign (Vector3d)

/-- The colour record `ray::RGBA`: four `uint8_t` channels. -/
structure RGBA where
  red : Nat
  green : Nat
  blue : Nat
  alpha : Nat
deriving DecidableEq, Repr, Inhabited

/-- The fields of `ray::Cloud` that `raysplit.cpp` uses: four parallel vectors. -/
structure Cloud where
  starts : List Vector3d
  ends : List Vector3d
  times : List ℚ
  colours : List RGBA

/-- A default-constructed `ray::Cloud`, and the result of `clear()`. -/
def Cloud.clear : Cloud := ⟨[], [], [], []⟩

/-- Modelled from the spec: `Cloud::addRay` of the library header `raycloud.h`,
which is not among the sources; it appends one ray to the four vectors. -/
def Cloud.addRay (c : Cloud) (start stop : Vector3d) (time : ℚ) (colour : RGBA) : Cloud :=
  ⟨c.starts ++ [start], c.ends ++ [stop], c.times ++ [time], c.colours ++ [colour]⟩

/-- Modelled from the spec: `CloudWriter::writeChunk` of the library header
`raycloudwriter.h`, which is not among the sources; the writer is the cloud of
all rays written so far, and a chunk is appended to it. -/
def writeChunk (writer chunk : Cloud) : Cloud :=
  ⟨writer.starts ++ chunk.starts, writer.ends ++ chunk.ends, writer.times ++ chunk.times,
    writer.colours ++ chunk.colours⟩

/-- The variables captured by the closure `per_chunk` of `split`. -/
structure SplitState where
  cloud_buffer : Cloud
  in_writer : Cloud
  out_writer : Cloud
  in_chunk : Cloud
  out_chunk : Cloud

/-- Lines 62-63, one pass of the loop over `i`: the ray `i` of `cloud_buffer`
is added to `out_chunk` or to `in_chunk`.  The pair is `(in_chunk, out_chunk)`. -/
def addToChunk (is_outside : Cloud → Nat → Bool) (cloud_buffer : Cloud)
    (chunks : Cloud × Cloud) (i : Nat) : Cloud × Cloud :=
  if is_outside cloud_buffer i then
    (chunks.1, chunks.2.addRay (cloud_buffer.starts.getD i 0) (cloud_buffer.ends.getD i 0)
      (cloud_buffer.times.getD i 0) (cloud_buffer.colours.getD i default))
  else
    (chunks.1.addRay (cloud_buffer.starts.getD i 0) (cloud_buffer.ends.getD i 0)
      (cloud_buffer.times.getD i 0) (cloud_buffer.colours.getD i default), chunks.2)

/-- Lines 50-69: the closure `per_chunk`, applied to one chunk of rays. -/
def per_chunk (is_outside : Cloud → Nat → Bool) (st : SplitState)
    (starts ends : List Vector3d) (times : List ℚ) (colours : List RGBA) : SplitState :=
  let cloud_buffer : Cloud := ⟨starts, ends, times, colours⟩
  let chunks := (List.range cloud_buffer.ends.length).foldl
    (addToChunk is_outside cloud_buffer) (st.in_chunk, st.out_chunk)
  let in_writer := writeChunk st.in_writer chunks.1
  let out_writer := writeChunk st.out_writer chunks.2
  { cloud_buffer := cloud_buffer, in_writer := in_writer, out_writer := out_writer,
    in_chunk := Cloud.clear, out_chunk := Cloud.clear }

/-- Lines 37-74: `split`.  `Cloud::read` (not among the sources) calls
`per_chunk` once for every chunk of the file, in file order; the file is given
as its list of chunks. -/
def split (is_outside : Cloud → Nat → Bool) (file : List Cloud) : SplitState :=
  file.foldl (fun st chunk => per_chunk is_outside st chunk.starts chunk.ends chunk.times
    chunk.colours)
    { cloud_buffer := Cloud.clear, in_writer := Cloud.clear, out_writer := Cloud.clear,
      in_chunk := Cloud.clear, out_chunk := Cloud.clear }

/-- The indices of the rays of a chunk on which `is_outside` has the value `b`,
in increasing order. -/
def chunkIndices (is_outside : Cloud → Nat → Bool) (b : Bool) (chunk : Cloud) : List Nat :=
  (List.range chunk.ends.length).filter (fun i => is_outside chunk i == b)

/-- The rays of `chunk` at the indices `idxs`, in the order of `idxs`, each with
its own start, end, time and colour. -/
def raysAt (chunk : Cloud) (idxs : List Nat) : Cloud :=
  ⟨idxs.map (fun i => chunk.starts.getD i 0), idxs.map (fun i => chunk.ends.getD i 0),
    idxs.map (fun i => chunk.times.getD i 0), idxs.map (fun i => chunk.colours.getD i default)⟩

/-- The rays of a list of clouds, one cloud after the other. -/
def joinClouds (cs : List Cloud) : Cloud :=
  ⟨cs.flatMap (fun c => c.starts), cs.flatMap (fun c => c.ends), cs.flatMap (fun c => c.times),
    cs.flatMap (fun c => c.colours)⟩

/-- Eigen `squaredNorm`. -/
def squaredNorm (v : Vector3d) : ℚ := v 0 * v 0 + v 1 * v 1 + v 2 * v 2

/-- Eigen `dot`. -/
def dot (a b : Vector3d) : ℚ := a 0 * b 0 + a 1 * b 1 + a 2 * b 2

/-- Eigen `v / s`, a `double` division on every component: with `s = 0` every
component is non-finite, which is `none`. -/
def vdiv (v : Vector3d) (s : ℚ) : Option Vector3d :=
  if s = 0 then none else some (fun i => v i / s)

/-- Lines 155-158, the criterion `pos`: `vec = pos / pos.squaredNorm()` and
`ends[i].dot(vec) > 1.0`.  A comparison with a non-finite `vec` is false. -/
def posIsOutside (pos : Vector3d) (cloud : Cloud) (i : Nat) : Bool :=
  match vdiv pos (squaredNorm pos) with
  | none => false
  | some vec => decide (dot (cloud.ends.getD i 0) vec > 1.0)

/-- Lines 177-182, the criterion `colour`: `vec = colour / colour.squaredNorm()`
and `col.dot(vec) > 0.0` with `col` the red, green and blue channels over 255. -/
def colourIsOutside (colour : Vector3d) (cloud : Cloud) (i : Nat) : Bool :=
  match vdiv colour (squaredNorm colour) with
  | none => false
  | some vec =>
    let c := cloud.colours.getD i default
    let col : Vector3d := ![(c.red : ℚ) / 255.0, (c.green : ℚ) / 255.0, (c.blue : ℚ) / 255.0]
    decide (dot col vec > 0.0)

end RaySplit

/-! ## Theorems -/

namespace RayAlign

theorem fdiv_of_ne_zero (a b : ℚ) (hb : b ≠ 0) : fdiv a b = some (a / b) := by
  simp [fdiv, hb]

theorem fdiv_zero (a : ℚ) : fdiv a 0 = none := by
  simp [fdiv]

theorem subPixel_of_ne_zero (index : Int) (y0 y1 y2 : ℚ) (h : y0 + y2 - 2 * y1 ≠ 0) :
    subPixel index y0 y1 y2 = some ((index : ℚ) + 0.5 * (y0 - y2) / (y0 + y2 - 2 * y1)) := by
  have e : (2.0 : ℚ) = 2 := by norm_num
  unfold subPixel
  rw [e, fdiv_of_ne_zero _ _ h]
  rfl

theorem subPixel_of_eq_zero (index : Int) (y0 y1 y2 : ℚ) (h : y0 + y2 - 2 * y1 = 0) :
    subPixel index y0 y1 y2 = none := by
  have e : (2.0 : ℚ) = 2 := by norm_num
  unfold subPixel
  rw [e, h, fdiv_zero]
  rfl

theorem tdiv_two_eq_floor (N : Int) (hN : 0 ≤ N) : Int.tdiv N 2 = ⌊(N : ℚ) / 2⌋ := by
  rw [Int.tdiv_eq_ediv hN (by norm_num)]
  symm
  rw [Int.floor_eq_iff]
  constructor
  · rw [le_div_iff₀ (by norm_num)]
    have := Int.ediv_mul_le N (show (2 : Int) ≠ 0 by norm_num)
    exact_mod_cast this
  · rw [div_lt_iff₀ (by norm_num)]
    have := Int.lt_ediv_add_one_mul_self N (show (0 : Int) < 2 by norm_num)
    exact_mod_cast this

/-- C1. Sub-pixel refinement: with a non-zero denominator the refined estimate
is `p + d`, `d = 0.5*(y0 - y2)/(y0 + y2 - 2*y1)`; the three samples lie on a
parabola `a*(x - d)^2 + k` with `a ≠ 0`, and whenever they lie on a parabola
`a*(x - t)^2 + k` with `a ≠ 0` the offset `d` equals `t`. -/
theorem subPixel_parabola_vertex (p : Int) (y0 y1 y2 : ℚ) (h : y0 + y2 - 2 * y1 ≠ 0) :
    subPixel p y0 y1 y2 = some ((p : ℚ) + 0.5 * (y0 - y2) / (y0 + y2 - 2 * y1)) ∧
    (∃ a k : ℚ, a ≠ 0 ∧
      y0 = a * (-1 - 0.5 * (y0 - y2) / (y0 + y2 - 2 * y1)) ^ 2 + k ∧
      y1 = a * (0 - 0.5 * (y0 - y2) / (y0 + y2 - 2 * y1)) ^ 2 + k ∧
      y2 = a * (1 - 0.5 * (y0 - y2) / (y0 + y2 - 2 * y1)) ^ 2 + k) ∧
    (∀ a t k : ℚ, a ≠ 0 →
      y0 = a * (-1 - t) ^ 2 + k → y1 = a * (0 - t) ^ 2 + k → y2 = a * (1 - t) ^ 2 + k →
      0.5 * (y0 - y2) / (y0 + y2 - 2 * y1) = t) ∧
    (∀ a b c : ℚ,
      a * (-1) ^ 2 + b * (-1) + c = y0 → a * 0 ^ 2 + b * 0 + c = y1 →
      a * 1 ^ 2 + b * 1 + c = y2 →
      a ≠ 0 ∧ 0.5 * (y0 - y2) / (y0 + y2 - 2 * y1) = -b / (2 * a)) ∧
    (∀ (dim : Int) (corr : Int → ℚ),
      corr (Int.tmod (p + dim - 1) dim) = y0 → corr p = y1 → corr (Int.tmod (p + 1) dim) = y2 →
      rotationIndex dim corr p =
        some (wrapAround dim ((p : ℚ) + 0.5 * (y0 - y2) / (y0 + y2 - 2 * y1)))) ∧
    (∀ (dims : Vector3i) (corr : Vector3i → ℚ) (ind : Vector3i) (axis : Fin 3),
      ind axis = p →
      corr (Function.update ind axis (Int.tmod (ind axis + dims axis - 1) (dims axis))) = y0 →
      corr ind = y1 →
      corr (Function.update ind axis (Int.tmod (ind axis + 1) (dims axis))) = y2 →
      peakAxis dims corr ind axis =
        some (wrapAround (dims axis) ((p : ℚ) + 0.5 * (y0 - y2) / (y0 + y2 - 2 * y1)))) := by
  refine ⟨subPixel_of_ne_zero p y0 y1 y2 h, ?_, ?_, ?_, ?_, ?_⟩
  · refine ⟨(y0 + y2 - 2 * y1) / 2,
      y1 - (y0 + y2 - 2 * y1) / 2 * (0 - 0.5 * (y0 - y2) / (y0 + y2 - 2 * y1)) ^ 2, ?_, ?_, ?_, ?_⟩
    · exact div_ne_zero h (by norm_num)
    · field_simp
      ring
    · ring
    · field_simp
      ring
  · intro a t k ha h0 h1 h2
    have hd : y0 + y2 - 2 * y1 = 2 * a := by rw [h0, h1, h2]; ring
    have hn : y0 - y2 = 4 * a * t := by rw [h0, h2]; ring
    rw [hd, hn]
    field_simp
    ring
  · intro a b c h0 h1 h2
    have hd : y0 + y2 - 2 * y1 = 2 * a := by rw [← h0, ← h1, ← h2]; ring
    have hn : y0 - y2 = -(2 * b) := by rw [← h0, ← h2]; ring
    have ha : a ≠ 0 := by
      intro ha
      apply h
      rw [hd, ha, mul_zero]
    refine ⟨ha, ?_⟩
    rw [hd, hn]
    field_simp
    ring
  · intro dim corr e0 e1 e2
    simp only [rotationIndex, e0, e1, e2, subPixel_of_ne_zero p y0 y1 y2 h, Option.map_some']
  · intro dims corr ind axis ep e0 e1 e2
    subst ep
    simp only [peakAxis, e0, e1, e2, subPixel_of_ne_zero (ind axis) y0 y1 y2 h, Option.map_some']

theorem subPixel_parabola_vertex_witness :
    (3 : ℚ) + 9 - 2 * 10 ≠ 0 ∧
    subPixel 2 3 10 9 = some (((2 : Int) : ℚ) + 0.5 * (3 - 9) / (3 + 9 - 2 * 10)) :=
  ⟨by norm_num, (subPixel_parabola_vertex 2 3 10 9 (by norm_num)).1⟩

/-- C2 (as stated, refuted). For the odd length `N = 5`, peak index `2` and
offset `3/10` the position `2.3` does not exceed the exact half `2.5`, yet the
code subtracts `N`, because it compares against the integer quotient `5 / 2 = 2`. -/
theorem wrapAround_odd_length_not_exact_half :
    ¬ (((2 : Int) : ℚ) + 3 / 10 > ((5 : Int) : ℚ) / 2) ∧
    wrapAround 5 (((2 : Int) : ℚ) + 3 / 10) = ((2 : Int) : ℚ) + 3 / 10 - ((5 : Int) : ℚ) ∧
    wrapAround 5 (((2 : Int) : ℚ) + 3 / 10) ≠ wrapExactHalf 5 (((2 : Int) : ℚ) + 3 / 10) ∧
    peakAxis ![5, 5, 5]
      (fun v => if v 0 = 1 then 6 else if v 0 = 2 then 10 else if v 0 = 3 then 9 else 0)
      ![2, 0, 0] 0 = some (-27 / 10) := by
  refine ⟨by norm_num, ?_, ?_, ?_⟩
  · norm_num [wrapAround, Int.tdiv]
  · norm_num [wrapAround, wrapExactHalf, Int.tdiv]
  · have hd : (6 : ℚ) + 9 - 2 * 10 ≠ 0 := by norm_num
    have hb : Int.tmod (2 + 5 - 1) 5 = 1 := by decide
    have hf : Int.tmod (2 + 1) 5 = 3 := by decide
    simp only [peakAxis, Matrix.cons_val_zero, Function.update_same, hb, hf]
    norm_num only [if_true, if_false]
    rw [subPixel_of_ne_zero 2 6 10 9 hd]
    norm_num [wrapAround, Int.tdiv]

/-- C2 (amended). For every length `N > 0`, peak index `p` in `[0, N)` and
offset `d`, the estimate is `p + d - N` if `p + d` exceeds the integer quotient
`⌊N/2⌋`, and `p + d` otherwise; for even `N` this is the rule with the exact
half of `N`. -/
theorem wrapAround_integer_half (N : Int) (hN : 0 < N) (p : Int) (hp : 0 ≤ p ∧ p < N) (d : ℚ) :
    wrapAround N ((p : ℚ) + d) =
      (if (p : ℚ) + d > ((⌊(N : ℚ) / 2⌋ : Int) : ℚ) then (p : ℚ) + d - (N : ℚ)
        else (p : ℚ) + d) ∧
    (N % 2 = 0 → wrapAround N ((p : ℚ) + d) = wrapExactHalf N ((p : ℚ) + d)) := by
  have _ := hp
  constructor
  · unfold wrapAround
    rw [tdiv_two_eq_floor N hN.le]
  · intro hev
    unfold wrapAround wrapExactHalf
    rw [Int.tdiv_eq_ediv hN.le (by norm_num)]
    have h2 : ((N / 2 : Int) : ℚ) = (N : ℚ) / 2 := by
      have : N = 2 * (N / 2) := by omega
      rw [eq_div_iff (by norm_num)]
      exact_mod_cast (by omega : N / 2 * 2 = N)
    rw [h2]

theorem wrapAround_integer_half_witness :
    wrapAround 8 (((7 : Int) : ℚ) + 1 / 4) = wrapExactHalf 8 (((7 : Int) : ℚ) + 1 / 4) :=
  (wrapAround_integer_half 8 (by norm_num) 7 ⟨by norm_num, by norm_num⟩ (1 / 4)).2 (by norm_num)

/-- C4 (as stated, refuted). On the flat samples `y0 = y1 = y2 = 1` at peak
index `3` the quadratic-fit denominator is zero and the refined estimate is not
the number `3`: the division is carried out and its result is not finite. -/
theorem subPixel_flat_not_peak_index :
    (1 : ℚ) + 1 - 2 * 1 = 0 ∧ subPixel 3 1 1 1 ≠ some 3 ∧ subPixel 3 1 1 1 = none := by
  have h : subPixel 3 1 1 1 = none := subPixel_of_eq_zero 3 1 1 1 (by norm_num)
  refine ⟨by norm_num, ?_, h⟩
  rw [h]
  exact fun h => Option.noConfusion h

/-- C4 (amended). Whenever the quadratic-fit denominator is zero the division is
still carried out: no offset `0` is substituted, the refined estimate is not a
finite number, and neither is the rotation angle nor the translation on that
axis computed from it. -/
theorem zero_denominator_propagates :
    (∀ (p : Int) (y0 y1 y2 : ℚ), y0 + y2 - 2 * y1 = 0 → subPixel p y0 y1 y2 = none) ∧
    (∀ (pi : ℚ) (dim : Int) (corr : Int → ℚ) (index : Int),
      corr (Int.tmod (index + dim - 1) dim) + corr (Int.tmod (index + 1) dim)
          - 2 * corr index = 0 →
      rotationAngle pi dim corr index = none) ∧
    (∀ (w : ℚ) (boxMins0 boxMins1 : Vector3d) (dims : Vector3i) (corr : Vector3i → ℚ)
        (ind : Vector3i) (axis : Fin 3),
      corr (Function.update ind axis (Int.tmod (ind axis + dims axis - 1) (dims axis)))
          + corr (Function.update ind axis (Int.tmod (ind axis + 1) (dims axis)))
          - 2 * corr ind = 0 →
      translation w boxMins0 boxMins1 dims corr ind axis = none) := by
  refine ⟨subPixel_of_eq_zero, ?_, ?_⟩
  · intro pi dim corr index h
    simp only [rotationAngle, rotationIndex, subPixel_of_eq_zero _ _ _ _ h, Option.map_none']
  · intro w b0 b1 dims corr ind axis h
    simp only [translation, peakAxis, subPixel_of_eq_zero _ _ _ _ h, Option.map_none']

theorem zero_denominator_propagates_witness :
    rotationAngle (22 / 7) 8 (fun _ => 1) 3 = none :=
  zero_denominator_propagates.2.1 (22 / 7) 8 (fun _ => 1) 3 (by norm_num)

theorem foldl_box_bounds (l : List Vector3d) (acc : Vector3d × Vector3d) (i : Fin 3) :
    (l.foldl (fun box point => (minVector box.1 point, maxVector box.2 point)) acc).1 i
        ≤ acc.1 i ∧
    acc.2 i
        ≤ (l.foldl (fun box point => (minVector box.1 point, maxVector box.2 point)) acc).2 i ∧
    ∀ p ∈ l,
      (l.foldl (fun box point => (minVector box.1 point, maxVector box.2 point)) acc).1 i
          ≤ p i ∧
      p i ≤ (l.foldl (fun box point => (minVector box.1 point, maxVector box.2 point)) acc).2 i := by
  induction l generalizing acc with
  | nil => simp
  | cons q qs ih =>
    simp only [List.foldl_cons]
    obtain ⟨h1, h2, h3⟩ := ih (minVector acc.1 q, maxVector acc.2 q)
    have hmin : minVector acc.1 q i ≤ acc.1 i := min_le_left _ _
    have hminq : minVector acc.1 q i ≤ q i := min_le_right _ _
    have hmax : acc.2 i ≤ maxVector acc.2 q i := le_max_left _ _
    have hmaxq : q i ≤ maxVector acc.2 q i := le_max_right _ _
    refine ⟨le_trans h1 hmin, le_trans hmax h2, ?_⟩
    intro p hp
    rcases List.mem_cons.1 hp with rfl | hp
    · exact ⟨le_trans h1 hminq, le_trans hmaxq h2⟩
    · exact h3 p hp

theorem cloudBox_bounds (ends : List Vector3d) (p : Vector3d) (hp : p ∈ ends) (i : Fin 3) :
    (cloudBox ends).1 i ≤ p i ∧ p i ≤ (cloudBox ends).2 i :=
  (foldl_box_bounds ends _ i).2.2 p hp

theorem gridBoxesWith_boxMins (fl : ℚ → ℚ) (clouds : Fin 2 → List Vector3d) (c : Fin 2) :
    (gridBoxesWith fl clouds).1 c = (cloudBox (clouds c)).1 := by
  fin_cases c <;> simp [gridBoxesWith, Function.update]

theorem gridBoxes_boxMins (clouds : Fin 2 → List Vector3d) (c : Fin 2) :
    (gridBoxes clouds).1 c = (cloudBox (clouds c)).1 :=
  gridBoxesWith_boxMins roundDouble clouds c

theorem gridBoxesWith_boxWidth (fl : ℚ → ℚ) (clouds : Fin 2 → List Vector3d) (i : Fin 3) :
    (gridBoxesWith fl clouds).2 i =
      max (max 0 (fl ((cloudBox (clouds 0)).2 i - (cloudBox (clouds 0)).1 i)))
        (fl ((cloudBox (clouds 1)).2 i - (cloudBox (clouds 1)).1 i)) := by
  simp [gridBoxesWith, maxVector]

theorem gridBoxesWith_id_width_le (clouds : Fin 2 → List Vector3d) (c : Fin 2) (i : Fin 3) :
    (cloudBox (clouds c)).2 i - (cloudBox (clouds c)).1 i ≤ (gridBoxesWith id clouds).2 i := by
  rw [gridBoxesWith_boxWidth]
  fin_cases c
  · exact le_trans (le_max_right _ _) (le_max_left _ _)
  · exact le_max_right _ _

theorem roundHalfEven_eq (x : ℚ) (n : Int) (h1 : (n : ℚ) - 1 / 2 < x) (h2 : x < (n : ℚ) + 1 / 2) :
    roundHalfEven x = n := by
  unfold roundHalfEven
  by_cases hx : (n : ℚ) ≤ x
  · have hf : ⌊x⌋ = n := Int.floor_eq_iff.2 ⟨hx, by linarith⟩
    simp only [hf]
    rw [if_pos (by linarith)]
  · have hx : x < (n : ℚ) := lt_of_not_le hx
    have hf : ⌊x⌋ = n - 1 := by
      rw [Int.floor_eq_iff]
      push_cast
      constructor <;> linarith
    simp only [hf]
    push_cast
    rw [if_neg (by linarith), if_pos (by linarith)]
    ring

theorem log_two_eq (x : ℚ) (e : Int) (hx : 0 < x) (h1 : (2 : ℚ) ^ e ≤ x)
    (h2 : x < (2 : ℚ) ^ (e + 1)) : Int.log 2 |x| = e := by
  rw [abs_of_pos hx]
  have hb : 1 < 2 := by norm_num
  have hle : e ≤ Int.log 2 x := by
    rw [← Int.zpow_le_iff_le_log hb hx]
    exact_mod_cast h1
  have hlt : Int.log 2 x < e + 1 := by
    rw [← Int.lt_zpow_iff_log_lt hb hx]
    exact_mod_cast h2
  omega

theorem roundDouble_eq (x : ℚ) (e n : Int) (hx : 0 < x) (h1 : (2 : ℚ) ^ e ≤ x)
    (h2 : x < (2 : ℚ) ^ (e + 1)) (h3 : (n : ℚ) - 1 / 2 < x / (2 : ℚ) ^ (e - 52))
    (h4 : x / (2 : ℚ) ^ (e - 52) < (n : ℚ) + 1 / 2) :
    roundDouble x = (n : ℚ) * (2 : ℚ) ^ (e - 52) := by
  unfold roundDouble
  rw [if_neg hx.ne']
  simp only [log_two_eq x e hx h1 h2, roundHalfEven_eq _ n h3 h4]

/-- C5 (the code at a failing input). For the cloud whose only endpoint is the
origin, the computed `boxMin` is `(-1,-1,-1)` on every axis, below the only
endpoint, while `boxMax` is that endpoint; the recomputation after the rotation,
which starts from `1e10`, returns the endpoint on the same cloud. -/
theorem boxMin_single_origin_endpoint :
    (∀ i : Fin 3, (cloudBox [fun _ => 0]).1 i = -1) ∧
    (∀ i : Fin 3, (cloudBox [fun _ => 0]).2 i = 0) ∧
    (∀ c : Fin 2, ∀ i : Fin 3, (gridBoxes (fun _ => [fun _ => 0])).1 c i = -1) ∧
    (∀ i : Fin 3, rotatedBoxMin [fun _ => 0] i = 0) := by
  refine ⟨?_, ?_, ?_, ?_⟩
  · intro i
    simp [cloudBox, minVector]
  · intro i
    simp only [cloudBox, maxVector, List.foldl_cons, List.foldl_nil]
    norm_num
  · intro c i
    rw [gridBoxes_boxMins]
    simp [cloudBox, minVector]
  · intro i
    simp only [rotatedBoxMin, minVector, List.foldl_cons, List.foldl_nil]
    norm_num

/-- C6 (as stated, refuted). Both clouds consist of the one endpoint whose
coordinates are the double nearest to `0.001`.  The computed `boxWidth` is the
double `1 + 4503599627370 * 2^-52`, the rounded `0.001 + 1`, and the upper corner
`boxMins[c] + boxWidth` is `4503599627370 * 2^-52`, below the endpoint.  The same
happens with the two endpoints `-2` and the double nearest to `0.3`, where
`boxMin` is the true minimum. -/
theorem endpoint_above_rounded_box_top :
    roundDouble (1 / 1000) = 1152921504606847 / 1152921504606846976 ∧
    (-1e10 : ℚ) < 1152921504606847 / 1152921504606846976 ∧
    (∀ (c : Fin 2) (i : Fin 3),
      (gridBoxes (fun _ => [fun _ => 1152921504606847 / 1152921504606846976])).1 c i = -1) ∧
    (∀ i : Fin 3,
      (gridBoxes (fun _ => [fun _ => 1152921504606847 / 1152921504606846976])).2 i =
        2254051613498933 / 2251799813685248) ∧
    (∀ (c : Fin 2) (i : Fin 3),
      boxTop (fun _ => [fun _ => 1152921504606847 / 1152921504606846976]) c i =
        2251799813685 / 2251799813685248) ∧
    (∀ (c : Fin 2) (i : Fin 3),
      boxTop (fun _ => [fun _ => 1152921504606847 / 1152921504606846976]) c i <
        (1152921504606847 / 1152921504606846976 : ℚ)) ∧
    roundDouble (3 / 10) = 5404319552844595 / 18014398509481984 ∧
    (∀ (c : Fin 2) (i : Fin 3),
      (gridBoxes (fun _ => [fun _ => -2, fun _ => 5404319552844595 / 18014398509481984])).1 c i
        = -2) ∧
    (∀ (c : Fin 2) (i : Fin 3),
      boxTop (fun _ => [fun _ => -2, fun _ => 5404319552844595 / 18014398509481984]) c i <
        (5404319552844595 / 18014398509481984 : ℚ)) := by
  have r1 : roundDouble (1 / 1000) = 1152921504606847 / 1152921504606846976 := by
    rw [roundDouble_eq (1 / 1000) (-10) 4611686018427388 (by norm_num) (by norm_num)
      (by norm_num) (by norm_num) (by norm_num)]
    norm_num
  have r2 : roundDouble (1152921504606847 / 1152921504606846976 - -1) =
      2254051613498933 / 2251799813685248 := by
    rw [roundDouble_eq _ 0 4508103226997866 (by norm_num) (by norm_num)
      (by norm_num) (by norm_num) (by norm_num)]
    norm_num
  have r3 : roundDouble (-1 + 2254051613498933 / 2251799813685248) =
      2251799813685 / 2251799813685248 := by
    rw [roundDouble_eq _ (-10) 4611686018426880 (by norm_num) (by norm_num)
      (by norm_num) (by norm_num) (by norm_num)]
    norm_num
  have r4 : roundDouble (3 / 10) = 5404319552844595 / 18014398509481984 := by
    rw [roundDouble_eq (3 / 10) (-2) 5404319552844595 (by norm_num) (by norm_num)
      (by norm_num) (by norm_num) (by norm_num)]
    norm_num
  have r5 : roundDouble (5404319552844595 / 18014398509481984 - -2) =
      2589569785738035 / 1125899906842624 := by
    rw [roundDouble_eq _ 1 5179139571476070 (by norm_num) (by norm_num)
      (by norm_num) (by norm_num) (by norm_num)]
    norm_num
  have r6 : roundDouble (-2 + 2589569785738035 / 1125899906842624) =
      337769972052787 / 1125899906842624 := by
    rw [roundDouble_eq _ (-2) 5404319552844592 (by norm_num) (by norm_num)
      (by norm_num) (by norm_num) (by norm_num)]
    norm_num
  have b1 : ∀ i : Fin 3,
      (cloudBox [fun _ => 1152921504606847 / 1152921504606846976]).1 i = -1 := by
    intro i
    simp only [cloudBox, minVector, List.foldl_cons, List.foldl_nil]
    norm_num
  have b2 : ∀ i : Fin 3,
      (cloudBox [fun _ => 1152921504606847 / 1152921504606846976]).2 i =
        1152921504606847 / 1152921504606846976 := by
    intro i
    simp only [cloudBox, maxVector, List.foldl_cons, List.foldl_nil]
    norm_num
  have b3 : ∀ i : Fin 3,
      (cloudBox [fun _ => -2, fun _ => 5404319552844595 / 18014398509481984]).1 i = -2 := by
    intro i
    simp only [cloudBox, minVector, List.foldl_cons, List.foldl_nil]
    norm_num
  have b4 : ∀ i : Fin 3,
      (cloudBox [fun _ => -2, fun _ => 5404319552844595 / 18014398509481984]).2 i =
        5404319552844595 / 18014398509481984 := by
    intro i
    simp only [cloudBox, maxVector, List.foldl_cons, List.foldl_nil]
    norm_num
  have w1 : ∀ i : Fin 3,
      (gridBoxes (fun _ => [fun _ => 1152921504606847 / 1152921504606846976])).2 i =
        2254051613498933 / 2251799813685248 := by
    intro i
    unfold gridBoxes
    rw [gridBoxesWith_boxWidth, b1, b2, r2]
    norm_num
  have w2 : ∀ i : Fin 3,
      (gridBoxes (fun _ => [fun _ => -2, fun _ => 5404319552844595 / 18014398509481984])).2 i =
        2589569785738035 / 1125899906842624 := by
    intro i
    unfold gridBoxes
    rw [gridBoxesWith_boxWidth, b3, b4, r5]
    norm_num
  have t1 : ∀ (c : Fin 2) (i : Fin 3),
      boxTop (fun _ => [fun _ => 1152921504606847 / 1152921504606846976]) c i =
        2251799813685 / 2251799813685248 := by
    intro c i
    have hw := w1 i
    unfold gridBoxes at hw
    unfold boxTop boxTopWith
    rw [hw, gridBoxesWith_boxMins, b1, r3]
  have t2 : ∀ (c : Fin 2) (i : Fin 3),
      boxTop (fun _ => [fun _ => -2, fun _ => 5404319552844595 / 18014398509481984]) c i =
        337769972052787 / 1125899906842624 := by
    intro c i
    have hw := w2 i
    unfold gridBoxes at hw
    unfold boxTop boxTopWith
    rw [hw, gridBoxesWith_boxMins, b3, r6]
  refine ⟨r1, by norm_num, ?_, w1, t1, ?_, r4, ?_, ?_⟩
  · intro c i
    rw [gridBoxes_boxMins, b1]
  · intro c i
    rw [t1]
    norm_num
  · intro c i
    rw [gridBoxes_boxMins, b3]
  · intro c i
    rw [t2]
    norm_num

/-- C6 (amended). For every pair of clouds, every cloud `c`, every endpoint `p`
of it and every axis: `boxMins[c] ≤ p ≤ boxMax` as the program computes them;
and when the subtraction of line 63 and the addition of line 73 are exact, the
shared `boxWidth` is at least the cloud's own extent and at least the
difference of any two of its endpoints, `boxMins[c]` is the same vector, and
`p ≤ boxMins[c] + boxWidth`. -/
theorem endpoints_inside_exact_shared_box (clouds : Fin 2 → List Vector3d) (c : Fin 2)
    (p : Vector3d) (hp : p ∈ clouds c) (i : Fin 3) :
    (gridBoxes clouds).1 c i ≤ p i ∧
    p i ≤ (cloudBox (clouds c)).2 i ∧
    (cloudBox (clouds c)).2 i - (cloudBox (clouds c)).1 i ≤ (gridBoxesWith id clouds).2 i ∧
    (∀ q ∈ clouds c, p i - q i ≤ (gridBoxesWith id clouds).2 i) ∧
    (gridBoxesWith id clouds).1 c i = (gridBoxes clouds).1 c i ∧
    p i ≤ boxTopWith id clouds c i := by
  have hw := gridBoxesWith_id_width_le clouds c i
  have hb := cloudBox_bounds (clouds c) p hp i
  rw [gridBoxes_boxMins]
  refine ⟨hb.1, hb.2, hw, ?_, ?_, ?_⟩
  · intro q hq
    have hq := cloudBox_bounds (clouds c) q hq i
    linarith [hb.2, hq.1]
  · rw [gridBoxesWith_boxMins]
  · unfold boxTopWith
    rw [gridBoxesWith_boxMins]
    simp only [id]
    linarith [hb.2]

theorem endpoints_inside_exact_shared_box_witness :
    (![7, 9, 6] : Vector3d) 1 ≤
      boxTopWith id ![[![0, 0, 0], ![1, 2, 3]], [![5, 5, 5], ![7, 9, 6]]] 1 1 :=
  (endpoints_inside_exact_shared_box ![[![0, 0, 0], ![1, 2, 3]], [![5, 5, 5], ![7, 9, 6]]] 1
    ![7, 9, 6] (by simp) 1).2.2.2.2.2

theorem wrapped_coordinate_in_range (r d t : ℚ) (hr0 : 0 < r) (hr1 : r < 1) (hd : 0 < d)
    (ht0 : -1 ≤ t) (ht1 : t ≤ 1) :
    0 ≤ (if r * 0.5 * (d * t) < 0.0 then r * 0.5 * (d * t) + d else r * 0.5 * (d * t)) ∧
    (if r * 0.5 * (d * t) < 0.0 then r * 0.5 * (d * t) + d else r * 0.5 * (d * t)) < d := by
  have e0 : (0.0 : ℚ) = 0 := by norm_num
  have e5 : (0.5 : ℚ) = 1 / 2 := by norm_num
  rw [e0, e5]
  have h1 : r * t ≤ r := by
    have := mul_le_mul_of_nonneg_left ht1 hr0.le
    linarith
  have h2 : -r ≤ r * t := by
    have := mul_le_mul_of_nonneg_left ht0 hr0.le
    linarith
  have h3 : d * (r * t) < d := by
    have := mul_lt_mul_of_pos_left (lt_of_le_of_lt h1 hr1) hd
    linarith
  have h4 : -d < d * (r * t) := by
    have := mul_lt_mul_of_pos_left (lt_of_lt_of_le (neg_lt_neg hr1) h2) hd
    linarith
  have hlo : -(d / 2) < r * (1 / 2) * (d * t) := by
    have : r * (1 / 2) * (d * t) = d * (r * t) / 2 := by ring
    rw [this]
    linarith
  have hhi : r * (1 / 2) * (d * t) < d / 2 := by
    have : r * (1 / 2) * (d * t) = d * (r * t) / 2 := by ring
    rw [this]
    linarith
  split_ifs with h
  · constructor <;> linarith
  · constructor <;> linarith

theorem radius_in_unit_interval (m j : Int) (hj0 : 0 ≤ j) (hj : j < m) :
    0 < (0.5 + (j : ℚ)) / (m : ℚ) ∧ (0.5 + (j : ℚ)) / (m : ℚ) < 1 := by
  have e5 : (0.5 : ℚ) = 1 / 2 := by norm_num
  have hm : (0 : ℚ) < (m : ℚ) := by exact_mod_cast (by omega : (0 : Int) < m)
  have hj0q : (0 : ℚ) ≤ (j : ℚ) := by exact_mod_cast hj0
  have hjq : (j : ℚ) + 1 ≤ (m : ℚ) := by exact_mod_cast (by omega : j + 1 ≤ m)
  rw [e5]
  constructor
  · apply div_pos _ hm
    linarith
  · rw [div_lt_one hm]
    linarith

/-- The part of the index-validity property that the polar mapping has: the
wrapped sample coordinate lies in `[0, dims[0]) x [0, dims[1])`. -/
theorem polarPos_in_range (dims : Vector3i) (sinAngle cosAngle : ℚ) (j : Int)
    (h0 : 2 ≤ dims 0) (h1 : 2 ≤ dims 1)
    (hs : -1 ≤ sinAngle ∧ sinAngle ≤ 1) (hc : -1 ≤ cosAngle ∧ cosAngle ≤ 1)
    (hj : 0 ≤ j ∧ j < maxRad dims) :
    (0 ≤ polarPos dims sinAngle cosAngle j 0 ∧
      polarPos dims sinAngle cosAngle j 0 < ((dims 0 : Int) : ℚ)) ∧
    (0 ≤ polarPos dims sinAngle cosAngle j 1 ∧
      polarPos dims sinAngle cosAngle j 1 < ((dims 1 : Int) : ℚ)) := by
  have hr := radius_in_unit_interval (maxRad dims) j hj.1 hj.2
  have hd0 : (0 : ℚ) < ((dims 0 : Int) : ℚ) := by exact_mod_cast (by omega : (0 : Int) < dims 0)
  have hd1 : (0 : ℚ) < ((dims 1 : Int) : ℚ) := by exact_mod_cast (by omega : (0 : Int) < dims 1)
  have hp : polarDims dims 1 = maxRad dims := by simp [polarDims]
  constructor
  · have := wrapped_coordinate_in_range _ _ sinAngle hr.1 hr.2 hd0 hs.1 hs.2
    simpa [polarPos, hp] using this
  · have := wrapped_coordinate_in_range _ _ cosAngle hr.1 hr.2 hd1 hc.1 hc.2
    simpa [polarPos, hp] using this

theorem polarPos_in_range_witness :
    polarPos ![4, 4, 1] (-1) 0 0 0 < (((![4, 4, 1] : Vector3i) 0 : Int) : ℚ) :=
  (polarPos_in_range ![4, 4, 1] (-1) 0 0 (by simp) (by simp) ⟨by norm_num, by norm_num⟩
    ⟨by norm_num, by norm_num⟩ ⟨by norm_num, by simp [maxRad, Int.tdiv]⟩).1.2

theorem toInt_of_mem_Ico (v : ℚ) (n : Int) (h0 : 0 ≤ v) (hn : (n : ℚ) ≤ v)
    (hn1 : v < (n : ℚ) + 1) : toInt v = n := by
  unfold toInt
  rw [if_pos h0, Int.floor_eq_iff]
  exact ⟨hn, hn1⟩

theorem toInt_in_range (v : ℚ) (d : Int) (h0 : 0 ≤ v) (hd : v < (d : ℚ)) :
    0 ≤ toInt v ∧ toInt v < d ∧ toInt v + 1 ≤ d := by
  unfold toInt
  rw [if_pos h0]
  have h1 : ⌊v⌋ < d := Int.floor_lt.2 hd
  exact ⟨Int.floor_nonneg.2 h0, h1, h1⟩

/-- C10 (the code at a failing input). On the grid `4 x 4 x 1`, angle bin `6`
of `8` (sine `-1`, cosine `0`) and radius bin `0`: the wrapped coordinate is
`(3.5, 0)`, inside the grid, and the four cells read are `(3,0)`, `(4,0)`,
`(3,1)`, `(4,1)`; the `x` index `4` of two of them equals `dims[0]`. -/
theorem polarCells_reads_index_equal_to_dim :
    maxRad ![4, 4, 1] = 2 ∧
    polarPos ![4, 4, 1] (-1) 0 0 0 = 7 / 2 ∧
    polarPos ![4, 4, 1] (-1) 0 0 1 = 0 ∧
    polarCells ![4, 4, 1] (-1) 0 0 = [(3, 0), (4, 0), (3, 1), (4, 1)] ∧
    ¬ ((4 : Int) < (![4, 4, 1] : Vector3i) 0) := by
  have hm : maxRad ![4, 4, 1] = 2 := by simp [maxRad, Int.tdiv]
  have hp0 : polarPos ![4, 4, 1] (-1) 0 0 0 = 7 / 2 := by
    simp only [polarPos, polarDims, hm]
    norm_num
  have hp1 : polarPos ![4, 4, 1] (-1) 0 0 1 = 0 := by
    simp only [polarPos, polarDims, hm]
    norm_num
  refine ⟨hm, hp0, hp1, ?_, by simp⟩
  have hx : toInt (7 / 2 : ℚ) = 3 := toInt_of_mem_Ico _ 3 (by norm_num) (by norm_num) (by norm_num)
  have hy : toInt (0 : ℚ) = 0 := toInt_of_mem_Ico _ 0 (by norm_num) (by norm_num) (by norm_num)
  simp only [polarCells, hp0, hp1, hx, hy]
  norm_num

end RayAlign

namespace RaySplit

open RayAlign (Vector3d)

theorem writeChunk_clear_left (c : Cloud) : writeChunk Cloud.clear c = c := by
  simp [writeChunk, Cloud.clear]

theorem writeChunk_raysAt_nil (w chunk : Cloud) : writeChunk w (raysAt chunk []) = w := by
  simp [writeChunk, raysAt]

theorem writeChunk_addRay (w chunk : Cloud) (i : Nat) (idxs : List Nat) :
    writeChunk (w.addRay (chunk.starts.getD i 0) (chunk.ends.getD i 0) (chunk.times.getD i 0)
      (chunk.colours.getD i default)) (raysAt chunk idxs) = writeChunk w (raysAt chunk (i :: idxs)) := by
  simp [writeChunk, raysAt, Cloud.addRay]

theorem foldl_addToChunk (f : Cloud → Nat → Bool) (buf : Cloud) (l : List Nat) (a b : Cloud) :
    l.foldl (addToChunk f buf) (a, b) =
      (writeChunk a (raysAt buf (l.filter (fun i => f buf i == false))),
        writeChunk b (raysAt buf (l.filter (fun i => f buf i == true)))) := by
  induction l generalizing a b with
  | nil => simp [writeChunk_raysAt_nil]
  | cons i l ih =>
    rw [List.foldl_cons]
    cases hf : f buf i with
    | true =>
      have hstep : addToChunk f buf (a, b) i =
          (a, b.addRay (buf.starts.getD i 0) (buf.ends.getD i 0) (buf.times.getD i 0)
            (buf.colours.getD i default)) := by
        simp [addToChunk, hf]
      rw [hstep, ih, writeChunk_addRay]
      simp [List.filter_cons, hf]
    | false =>
      have hstep : addToChunk f buf (a, b) i =
          (a.addRay (buf.starts.getD i 0) (buf.ends.getD i 0) (buf.times.getD i 0)
            (buf.colours.getD i default), b) := by
        simp [addToChunk, hf]
      rw [hstep, ih, writeChunk_addRay]
      simp [List.filter_cons, hf]

theorem per_chunk_writers (f : Cloud → Nat → Bool) (st : SplitState) (chunk : Cloud)
    (hin : st.in_chunk = Cloud.clear) (hout : st.out_chunk = Cloud.clear) :
    (per_chunk f st chunk.starts chunk.ends chunk.times chunk.colours).in_writer =
        writeChunk st.in_writer (raysAt chunk (chunkIndices f false chunk)) ∧
    (per_chunk f st chunk.starts chunk.ends chunk.times chunk.colours).out_writer =
        writeChunk st.out_writer (raysAt chunk (chunkIndices f true chunk)) ∧
    (per_chunk f st chunk.starts chunk.ends chunk.times chunk.colours).in_chunk = Cloud.clear ∧
    (per_chunk f st chunk.starts chunk.ends chunk.times chunk.colours).out_chunk = Cloud.clear := by
  have hbuf : (⟨chunk.starts, chunk.ends, chunk.times, chunk.colours⟩ : Cloud) = chunk := rfl
  refine ⟨?_, ?_, rfl, rfl⟩
  · simp only [per_chunk, hbuf, hin, hout, foldl_addToChunk, writeChunk_clear_left, chunkIndices]
  · simp only [per_chunk, hbuf, hin, hout, foldl_addToChunk, writeChunk_clear_left, chunkIndices]

theorem writeChunk_joinClouds (w c : Cloud) (cs : List Cloud) :
    writeChunk (writeChunk w c) (joinClouds cs) = writeChunk w (joinClouds (c :: cs)) := by
  simp [writeChunk, joinClouds]

theorem foldl_per_chunk (f : Cloud → Nat → Bool) (file : List Cloud) (st : SplitState)
    (hin : st.in_chunk = Cloud.clear) (hout : st.out_chunk = Cloud.clear) :
    (file.foldl (fun st chunk => per_chunk f st chunk.starts chunk.ends chunk.times
        chunk.colours) st).in_writer =
      writeChunk st.in_writer
        (joinClouds (file.map (fun c => raysAt c (chunkIndices f false c)))) ∧
    (file.foldl (fun st chunk => per_chunk f st chunk.starts chunk.ends chunk.times
        chunk.colours) st).out_writer =
      writeChunk st.out_writer
        (joinClouds (file.map (fun c => raysAt c (chunkIndices f true c)))) ∧
    (file.foldl (fun st chunk => per_chunk f st chunk.starts chunk.ends chunk.times
        chunk.colours) st).in_chunk = Cloud.clear ∧
    (file.foldl (fun st chunk => per_chunk f st chunk.starts chunk.ends chunk.times
        chunk.colours) st).out_chunk = Cloud.clear := by
  induction file generalizing st with
  | nil =>
    refine ⟨?_, ?_, hin, hout⟩ <;> simp [writeChunk, joinClouds]
  | cons c cs ih =>
    obtain ⟨h1, h2, h3, h4⟩ := per_chunk_writers f st c hin hout
    obtain ⟨i1, i2, i3, i4⟩ := ih (per_chunk f st c.starts c.ends c.times c.colours) h3 h4
    simp only [List.foldl_cons, List.map_cons]
    refine ⟨?_, ?_, i3, i4⟩
    · rw [i1, h1, writeChunk_joinClouds]
    · rw [i2, h2, writeChunk_joinClouds]

/-- C7. For every file (list of chunks) and every predicate `is_outside`: the
outside writer receives, chunk after chunk, exactly the rays `i` of each chunk
with `is_outside(chunk, i)` true, and the inside writer those with it false,
each with its own start, end, time and colour; within a chunk the indices
written to either output are increasing, every index of a chunk is in exactly
one of the two index lists, and both chunk buffers are empty at the end. -/
theorem split_partitions_each_chunk (is_outside : Cloud → Nat → Bool) (file : List Cloud) :
    (split is_outside file).out_writer =
      joinClouds (file.map (fun c => raysAt c (chunkIndices is_outside true c))) ∧
    (split is_outside file).in_writer =
      joinClouds (file.map (fun c => raysAt c (chunkIndices is_outside false c))) ∧
    (∀ (c : Cloud) (i : Nat),
      (i ∈ chunkIndices is_outside true c ↔ i < c.ends.length ∧ is_outside c i = true) ∧
      (i ∈ chunkIndices is_outside false c ↔ i < c.ends.length ∧ is_outside c i = false)) ∧
    (∀ (c : Cloud) (b : Bool), List.Pairwise (fun i j => i < j) (chunkIndices is_outside b c)) ∧
    (split is_outside file).in_chunk = Cloud.clear ∧
    (split is_outside file).out_chunk = Cloud.clear := by
  obtain ⟨h1, h2, h3, h4⟩ := foldl_per_chunk is_outside file
    { cloud_buffer := Cloud.clear, in_writer := Cloud.clear, out_writer := Cloud.clear,
      in_chunk := Cloud.clear, out_chunk := Cloud.clear } rfl rfl
  refine ⟨?_, ?_, ?_, ?_, h3, h4⟩
  · unfold split
    rw [h2, writeChunk_clear_left]
  · unfold split
    rw [h1, writeChunk_clear_left]
  · intro c i
    simp [chunkIndices, List.mem_filter, List.mem_range]
  · intro c b
    exact List.Pairwise.filter _ (List.pairwise_lt_range _)

theorem squaredNorm_pos (a : Vector3d) (ha : a ≠ 0) : 0 < squaredNorm a := by
  unfold squaredNorm
  have h0 := mul_self_nonneg (a 0)
  have h1 := mul_self_nonneg (a 1)
  have h2 := mul_self_nonneg (a 2)
  by_contra hcon
  have hz : a 0 * a 0 = 0 ∧ a 1 * a 1 = 0 ∧ a 2 * a 2 = 0 := by
    refine ⟨?_, ?_, ?_⟩ <;> linarith
  apply ha
  funext k
  fin_cases k
  · exact mul_self_eq_zero.1 hz.1
  · exact mul_self_eq_zero.1 hz.2.1
  · exact mul_self_eq_zero.1 hz.2.2

theorem dot_vdiv (e a : Vector3d) (s : ℚ) :
    dot e (fun k => a k / s) = dot e a / s := by
  unfold dot
  ring

theorem posIsOutside_iff (a : Vector3d) (cloud : Cloud) (i : Nat) (ha : a ≠ 0) :
    posIsOutside a cloud i = true ↔ squaredNorm a < dot (cloud.ends.getD i 0) a := by
  have hs := squaredNorm_pos a ha
  have e1 : (1.0 : ℚ) = 1 := by norm_num
  unfold posIsOutside vdiv
  rw [if_neg hs.ne']
  simp only [decide_eq_true_eq, dot_vdiv, e1, gt_iff_lt]
  rw [lt_div_iff₀ hs, one_mul]

/-- C9. For every non-zero position argument `a` and every ray with end point
`e`, the ray is classified outside exactly when `(e - a) . a > 0`, equivalently
`e . a > a . a`; for the argument `10,0,0` this is `e.x > 10`. -/
theorem pos_criterion_is_plane_through_argument (a : Vector3d) (cloud : Cloud) (i : Nat)
    (ha : a ≠ 0) :
    (posIsOutside a cloud i = true ↔
      dot (fun k => cloud.ends.getD i 0 k - a k) a > 0) ∧
    (posIsOutside a cloud i = true ↔ dot (cloud.ends.getD i 0) a > dot a a) ∧
    (posIsOutside ![10, 0, 0] cloud i = true ↔ cloud.ends.getD i 0 0 > 10) := by
  have hsq : squaredNorm a = dot a a := rfl
  refine ⟨?_, ?_, ?_⟩
  · rw [posIsOutside_iff a cloud i ha, hsq]
    have : dot (fun k => cloud.ends.getD i 0 k - a k) a
        = dot (cloud.ends.getD i 0) a - dot a a := by
      unfold dot
      ring
    rw [this, gt_iff_lt, sub_pos]
  · rw [posIsOutside_iff a cloud i ha, hsq]
  · have h10 : (![10, 0, 0] : Vector3d) ≠ 0 := by
      intro h
      have := congrFun h 0
      simp at this
    rw [posIsOutside_iff _ cloud i h10]
    simp only [squaredNorm, dot, Matrix.cons_val_zero, Matrix.cons_val_one, Matrix.head_cons,
      Matrix.cons_val_two, Matrix.tail_cons]
    constructor
    · intro h
      linarith
    · intro h
      linarith

theorem pos_criterion_is_plane_through_argument_witness :
    posIsOutside ![10, 0, 0] ⟨[0], [![11, 0, 0]], [0], [default]⟩ 0 = true ↔
      dot (([![11, 0, 0]] : List Vector3d).getD 0 0) ![10, 0, 0] > dot ![10, 0, 0] ![10, 0, 0] :=
  (pos_criterion_is_plane_through_argument ![10, 0, 0] ⟨[0], [![11, 0, 0]], [0], [default]⟩ 0
    (by
      intro h
      have := congrFun h 0
      simp at this)).2.1

/-- With an argument `(c, 0, 0)`, `c > 0`, the colour criterion does not depend
on `c`: a ray is classified outside exactly when its red channel is not zero. -/
theorem colourIsOutside_red_axis (c : ℚ) (hc : 0 < c) (cloud : Cloud) (i : Nat) :
    colourIsOutside ![c, 0, 0] cloud i = true ↔ 0 < (cloud.colours.getD i default).red := by
  have hs : squaredNorm ![c, 0, 0] = c * c := by
    simp [squaredNorm]
  have hcc : c * c ≠ 0 := (mul_pos hc hc).ne'
  have e0 : (0.0 : ℚ) = 0 := by norm_num
  have e255 : (255.0 : ℚ) = 255 := by norm_num
  unfold colourIsOutside vdiv
  rw [hs, if_neg hcc]
  simp only [decide_eq_true_eq, dot, e0, e255, Matrix.cons_val_zero, Matrix.cons_val_one,
    Matrix.head_cons, Matrix.cons_val_two, Matrix.tail_cons, zero_div, mul_zero, add_zero,
    gt_iff_lt]
  have hpos : (0 : ℚ) < c / (c * c) := div_pos hc (mul_pos hc hc)
  constructor
  · intro h
    have h1 : (0 : ℚ) < ((cloud.colours.getD i default).red : ℚ) / 255 :=
      (mul_pos_iff_of_pos_right hpos).1 h
    have h2 : (0 : ℚ) < ((cloud.colours.getD i default).red : ℚ) := by
      have := (div_pos_iff_of_pos_right (by norm_num : (0 : ℚ) < 255)).1 h1
      exact this
    exact_mod_cast h2
  · intro h
    have h2 : (0 : ℚ) < ((cloud.colours.getD i default).red : ℚ) := by exact_mod_cast h
    exact mul_pos (div_pos h2 (by norm_num)) hpos

/-- C8 (the code at a failing input). With the documented argument `0.5,0,0` a
ray with red `100` is classified outside although `100/255` is not greater than
`0.5`; the `pos` criterion, built the same way, compares against `1.0` and
classifies an end point at `x = 5` inside for the argument `10,0,0`. -/
theorem colour_half_red_splits_at_zero :
    colourIsOutside ![0.5, 0, 0] ⟨[0], [0], [0], [⟨100, 0, 0, 255⟩]⟩ 0 = true ∧
    ¬ ((100 : ℚ) / 255 > 0.5) ∧
    colourIsOutside ![0.5, 0, 0] ⟨[0], [0], [0], [⟨200, 0, 0, 255⟩]⟩ 0 = true ∧
    colourIsOutside ![0.5, 0, 0] ⟨[0], [0], [0], [⟨1, 0, 0, 255⟩]⟩ 0 = true ∧
    posIsOutside ![10, 0, 0] ⟨[0], [![5, 0, 0]], [0], [default]⟩ 0 = false := by
  have h5 : (0 : ℚ) < 0.5 := by norm_num
  refine ⟨?_, by norm_num, ?_, ?_, ?_⟩
  · rw [colourIsOutside_red_axis 0.5 h5]
    simp
  · rw [colourIsOutside_red_axis 0.5 h5]
    simp
  · rw [colourIsOutside_red_axis 0.5 h5]
    simp
  · have h10 : (![10, 0, 0] : Vector3d) ≠ 0 := by
      intro h
      have := congrFun h 0
      simp at this
    rw [Bool.eq_false_iff]
    intro h
    rw [posIsOutside_iff _ _ _ h10] at h
    simp [squaredNorm, dot] at h
    linarith

end RaySplit
